import Mathlib

/-!
Verification of the faster_whisper_stt_v2 serving control plane
(`src/services/python/modules/faster_whisper_stt_v2/`): resource admission
control (`resources.py`, `config.py`), model-key canonicalisation
(`registry.py`, `hw_probe.py`), registry construction under concurrency
(`registry.py`), the inference driver's segment consumption order
(`transcription.py`), and the in-memory WAV decoder (`audio_io.py`).

Python floats are modelled as rationals; raising an exception is modelled as
`Option`/`Except`; the hardware probe is modelled as a stream of snapshots
(each call to `probe()` consumes the next observation).
-/

/-! ## Tunables (`config.py`) -/

/-- `config.MODEL_RESIDENT_GB` with the `.get(name, 2.0)` default folded in. -/
def MODEL_RESIDENT_GB (m : String) : ℚ :=
  if m = "tiny" then 7/10
  else if m = "base" then 14/10
  else if m = "small" then 25/10
  else if m = "medium" then 5
  else if m = "large" then 10
  else if m = "large-v2" then 11
  else if m = "large-v3" then 12
  else 2

/-- `config.COMPUTE_MULTIPLIER` with the `.get(compute, 1.0)` default folded in. -/
def COMPUTE_MULTIPLIER (c : String) : ℚ :=
  if c = "float32" then 2
  else if c = "float16" then 1
  else if c = "int8" then 6/10
  else 1

/-- `config.TRANSIENT_PER_MIN_GB` with the `.get(name, 0.3)` default folded in. -/
def TRANSIENT_PER_MIN_GB (m : String) : ℚ :=
  if m = "tiny" then 2/10
  else if m = "base" then 2/10
  else if m = "small" then 3/10
  else if m = "medium" then 5/10
  else if m = "large" then 8/10
  else if m = "large-v2" then 9/10
  else if m = "large-v3" then 1
  else 3/10

def DEFAULT_BEAM_BASELINE : ℚ := 5

def GPU_VRAM_MARGIN_GB : ℚ := 3/2

def CPU_RAM_MARGIN_GB : ℚ := 2

def DEFAULT_GPU_CONCURRENCY : ℤ := 1

def DEFAULT_CPU_CONCURRENCY : ℤ := 2

/-! ## Data model (`types.py`) -/

/-- `Estimate` TypedDict: `{resident_gb, transient_gb}`. -/
structure Estimate where
  resident_gb : ℚ
  transient_gb : ℚ
deriving DecidableEq, Repr

/-- `ResourceSnapshot` as produced by `ResourceManager.probe`: `gpu_present`
together with `gpu_total_gb`/`gpu_free_gb` are set when `gpu_memory_gb()`
returns a pair (field `gpu = some (total, free)`), and `ram_total_gb`/
`ram_available_gb` when `ram_gb()` returns a pair (field `ram`). -/
structure ResourceSnapshot where
  gpu : Option (ℚ × ℚ)
  ram : Option (ℚ × ℚ)
deriving DecidableEq, Repr

/-- Reading `snap.get("gpu_free_gb", 0.0)`. -/
def ResourceSnapshot.gpuFreeGb (s : ResourceSnapshot) : ℚ :=
  (s.gpu.map Prod.snd).getD 0

/-- Reading `snap.get("ram_available_gb", 0.0)`. -/
def ResourceSnapshot.ramAvailableGb (s : ResourceSnapshot) : ℚ :=
  (s.ram.map Prod.snd).getD 0

/-! ## ResourceManager (`resources.py`) -/

/-- `ResourceManager` dataclass: the two margin fields. -/
structure ResourceManager where
  gpu_margin_gb : ℚ := GPU_VRAM_MARGIN_GB
  ram_margin_gb : ℚ := CPU_RAM_MARGIN_GB
deriving DecidableEq, Repr

/-- A `ResourceManager()` built with the default margins from `config`. -/
def defaultRM : ResourceManager := {}

/-- `ResourceManager.estimate`. `base_resident * precision_mult` for the
resident part; `max(0.1, base_transient * max(0.2, audio_minutes) *
max(1.0, beam_size / DEFAULT_BEAM_BASELINE))` for the transient part. -/
def ResourceManager.estimate (_mgr : ResourceManager) (model_name compute_type : String)
    (audioMinutes : ℚ) (beam_size : ℤ) : Estimate :=
  let base_resident := MODEL_RESIDENT_GB model_name
  let precision_mult := COMPUTE_MULTIPLIER compute_type
  let resident_gb := base_resident * precision_mult
  let base_transient := TRANSIENT_PER_MIN_GB model_name
  let beam_scale := max 1 ((beam_size : ℚ) / DEFAULT_BEAM_BASELINE)
  let transient_gb := max (1/10) (base_transient * max (2/10) audioMinutes * beam_scale)
  { resident_gb := resident_gb, transient_gb := transient_gb }

/-- `ResourceManager.can_accept` with an explicit snapshot (the
`snapshot or self.probe()` resolution is done by the caller).  The reason
strings stand for the formatted messages of the source; their numeric
interpolations are omitted (the spec makes the exact wording non-normative). -/
def ResourceManager.can_accept (mgr : ResourceManager) (device : String)
    (est : Estimate) (is_loaded : Bool) (snap : ResourceSnapshot) :
    Bool × Option String :=
  let resident : ℚ := if is_loaded then 0 else est.resident_gb
  let transient := est.transient_gb
  if device = "cuda" then
    if snap.gpu.isSome = false then
      (false, some "GPU not present")
    else
      let free_vram := max 0 (snap.gpuFreeGb - mgr.gpu_margin_gb)
      let need := resident + transient
      if need ≤ free_vram then (true, none)
      else (false, some "Insufficient VRAM")
  else
    let free_ram := max 0 (snap.ramAvailableGb - mgr.ram_margin_gb)
    let need := resident + transient
    if need ≤ free_ram then (true, none)
    else (false, some "Insufficient RAM")

/-- `ResourceManager.concurrency_hint` with an explicit snapshot.  Mirrors the
source line by line, including the (dead) `transient <= 0.0` branch and the
trailing Python `or DEFAULT` (which fires only when `max(1, ...)` is falsy). -/
def ResourceManager.concurrency_hint (mgr : ResourceManager) (device : String)
    (est : Estimate) (snap : ResourceSnapshot) : ℤ :=
  let transient := max est.transient_gb (1/10)
  if device = "cuda" then
    if snap.gpu.isSome = false then 0
    else
      let free_vram := max 0 (snap.gpuFreeGb - mgr.gpu_margin_gb)
      if transient ≤ 0 then DEFAULT_GPU_CONCURRENCY
      else
        let r := max 1 ⌊free_vram / transient⌋
        if r = 0 then DEFAULT_GPU_CONCURRENCY else r
  else
    let free_ram := max 0 (snap.ramAvailableGb - mgr.ram_margin_gb)
    if transient ≤ 0 then DEFAULT_CPU_CONCURRENCY
    else
      let r := max 1 ⌊free_ram / transient⌋
      if r = 0 then DEFAULT_CPU_CONCURRENCY else r

/-- `ResourceRejectedError(reason, snapshot)` payload. -/
structure ResourceRejected where
  reason : String
  snapshot : ResourceSnapshot
deriving DecidableEq, Repr

/-- `ResourceManager.admit_or_raise`.  `probeStream` models successive returns
of `self.probe()`: `can_accept` is called with `snapshot=None`, so it probes
internally (`probeStream 0`); on rejection the source calls `self.probe()`
a second time (`probeStream 1`) and attaches that snapshot to the error. -/
def ResourceManager.admit_or_raise (mgr : ResourceManager)
    (probeStream : ℕ → ResourceSnapshot) (device model_name compute_type : String)
    (audioMinutes : ℚ) (beam_size : ℤ) (is_loaded : Bool) :
    Except ResourceRejected Estimate :=
  let est := mgr.estimate model_name compute_type audioMinutes beam_size
  let ok := mgr.can_accept device est is_loaded (probeStream 0)
  if ok.1 then Except.ok est
  else Except.error { reason := ok.2.getD "Insufficient resources", snapshot := probeStream 1 }

/-! ## Model registry key canonicalisation (`hw_probe.py`, `registry.py`) -/

/-- `ModelKey` NamedTuple. -/
structure ModelKey where
  model_name : String
  device : String
  compute_type : String
deriving DecidableEq, Repr

/-- `hw_probe.resolve_auto_device_compute`.  `is_cuda_available()` is an
environment observation, passed in as `cudaAvailable`. -/
def resolve_auto_device_compute (cudaAvailable : Bool) (device compute_type : String) :
    String × String :=
  let d := if device = "auto" then (if cudaAvailable then "cuda" else "cpu") else device
  let c := if compute_type = "auto" then (if d = "cuda" then "float16" else "float32")
           else compute_type
  (d, c)

/-- `WhisperModelRegistry._key`: resolve `auto`, then clamp device to
`{cpu, cuda}` (else `cpu`) and compute to `{float32, float16, int8}`
(else `float32` on cpu, `float16` otherwise). -/
def WhisperModelRegistry.key (cudaAvailable : Bool)
    (model_name device compute_type : String) : ModelKey :=
  let dc := resolve_auto_device_compute cudaAvailable device compute_type
  let d := if dc.1 = "cpu" ∨ dc.1 = "cuda" then dc.1 else "cpu"
  let c := if dc.2 = "float32" ∨ dc.2 = "float16" ∨ dc.2 = "int8" then dc.2
           else if d = "cpu" then "float32" else "float16"
  { model_name := model_name, device := d, compute_type := c }

/-! ## Registry `get_or_create` under concurrent callers (`registry.py`)

The registry's `get_or_create` runs on a single-threaded asyncio loop; code
between suspension points is atomic, and the only suspension point is
acquiring the per-key `asyncio.Lock`.  We model one key and `n` concurrent
callers as a transition system, and — more finely than asyncio requires —
we even allow the `WhisperModel(...)` construction to be a separate step
while the lock is held (`building`), so that the double-checked lock itself
carries the exactly-once argument.  Model references are identified by
construction order: the k-th constructor invocation returns reference `k`,
and `count` is the number of constructor invocations so far. -/

/-- Program counter of one `get_or_create` caller. -/
inductive RegPC
  | start
  | waitLock
  | inLock
  | building
  | finished
deriving DecidableEq, Repr

/-- Local state of one caller: program counter and returned model reference. -/
structure CallerSt where
  pc : RegPC
  res : Option ℕ
deriving DecidableEq, Repr

/-- Shared registry state for one key plus the local states of `n` callers:
`model` is `self._models.get(key)`, `lockHeld` the holder of the per-key
`asyncio.Lock`, `count` the number of `WhisperModel(...)` invocations. -/
structure RegState (n : ℕ) where
  model : Option ℕ
  lockHeld : Option (Fin n)
  count : ℕ
  callers : Fin n → CallerSt

/-- All callers at the top of `get_or_create`, key unloaded, lock free. -/
def regInit (n : ℕ) : RegState n :=
  { model := none, lockHeld := none, count := 0, callers := fun _ => ⟨RegPC.start, none⟩ }

/-- One interleaving step of the `n` callers.  Each constructor is one atomic
region of `get_or_create`; post-states are given by frame conditions. -/
inductive RegStep {n : ℕ} : RegState n → RegState n → Prop
  | fastHit (s s' : RegState n) (i : Fin n) (m : ℕ)
      (hpc : (s.callers i).pc = RegPC.start) (hm : s.model = some m)
      (hci : s'.callers i = ⟨RegPC.finished, some m⟩)
      (hcj : ∀ j, j ≠ i → s'.callers j = s.callers j)
      (hm' : s'.model = s.model) (hl' : s'.lockHeld = s.lockHeld)
      (hk' : s'.count = s.count) : RegStep s s'
  | fastMiss (s s' : RegState n) (i : Fin n)
      (hpc : (s.callers i).pc = RegPC.start) (hm : s.model = none)
      (hci : s'.callers i = ⟨RegPC.waitLock, (s.callers i).res⟩)
      (hcj : ∀ j, j ≠ i → s'.callers j = s.callers j)
      (hm' : s'.model = s.model) (hl' : s'.lockHeld = s.lockHeld)
      (hk' : s'.count = s.count) : RegStep s s'
  | acquire (s s' : RegState n) (i : Fin n)
      (hpc : (s.callers i).pc = RegPC.waitLock) (hl : s.lockHeld = none)
      (hci : s'.callers i = ⟨RegPC.inLock, (s.callers i).res⟩)
      (hcj : ∀ j, j ≠ i → s'.callers j = s.callers j)
      (hm' : s'.model = s.model) (hl' : s'.lockHeld = some i)
      (hk' : s'.count = s.count) : RegStep s s'
  | critHit (s s' : RegState n) (i : Fin n) (m : ℕ)
      (hpc : (s.callers i).pc = RegPC.inLock) (hl : s.lockHeld = some i)
      (hm : s.model = some m)
      (hci : s'.callers i = ⟨RegPC.finished, some m⟩)
      (hcj : ∀ j, j ≠ i → s'.callers j = s.callers j)
      (hm' : s'.model = s.model) (hl' : s'.lockHeld = none)
      (hk' : s'.count = s.count) : RegStep s s'
  | beginBuild (s s' : RegState n) (i : Fin n)
      (hpc : (s.callers i).pc = RegPC.inLock) (hl : s.lockHeld = some i)
      (hm : s.model = none)
      (hci : s'.callers i = ⟨RegPC.building, (s.callers i).res⟩)
      (hcj : ∀ j, j ≠ i → s'.callers j = s.callers j)
      (hm' : s'.model = s.model) (hl' : s'.lockHeld = s.lockHeld)
      (hk' : s'.count = s.count) : RegStep s s'
  | finishBuild (s s' : RegState n) (i : Fin n)
      (hpc : (s.callers i).pc = RegPC.building) (hl : s.lockHeld = some i)
      (hci : s'.callers i = ⟨RegPC.finished, some s.count⟩)
      (hcj : ∀ j, j ≠ i → s'.callers j = s.callers j)
      (hm' : s'.model = some s.count) (hl' : s'.lockHeld = none)
      (hk' : s'.count = s.count + 1) : RegStep s s'

/-- Reachability from the initial state. -/
def RegReach {n : ℕ} (s : RegState n) : Prop :=
  Relation.ReflTransGen RegStep (regInit n) s

/-- Inductive invariant of the registry transition system. -/
def RegInv {n : ℕ} (s : RegState n) : Prop :=
  (∀ i, ((s.callers i).pc = RegPC.inLock ∨ (s.callers i).pc = RegPC.building) →
      s.lockHeld = some i) ∧
  (∀ m, s.model = some m → m = 0 ∧ s.count = 1) ∧
  (s.model = none → s.count = 0) ∧
  (∀ i, (s.callers i).pc = RegPC.building → s.model = none) ∧
  (∀ i r, (s.callers i).res = some r → s.model = some r) ∧
  (∀ i, (s.callers i).pc = RegPC.finished → (s.callers i).res ≠ none)

/-! ## Inference driver (`transcription.py`)

`transcribe_with_model` opens the scoped audio preparation (the
`with prepare_audio_input(...)` block), calls `model.transcribe` inside it —
which returns a *lazy* sequence of segments — and then leaves the block
(running `prepare_audio_input`'s `finally`, which deletes the temp file if
one was created) *before* the `for segment in segments` loop runs.  We model
the observable event order of one call, and the text assembly. -/

/-- Observable events of one `transcribe_with_model` call. -/
inductive DriverEv
  | scopeOpen
  | tempCreated
  | libCall
  | scopeClose
  | consumeSegment (i : ℕ)
deriving DecidableEq, Repr

/-- Event trace of `transcribe_with_model` on an input whose preparation
created a temp file iff `usesTempFile`, when the library's lazy sequence
holds `nSegments` segments: the scope opens, `model.transcribe` is invoked
under the scope, the `with` block exits (deleting any temp file), and only
then does the `for segment in segments` loop consume the segments. -/
def transcribeEvents (usesTempFile : Bool) (nSegments : ℕ) : List DriverEv :=
  [DriverEv.scopeOpen] ++ (if usesTempFile then [DriverEv.tempCreated] else []) ++
    [DriverEv.libCall, DriverEv.scopeClose] ++
    (List.range nSegments).map DriverEv.consumeSegment

/-- The property claimed of the driver: every segment consumption happens
before the scoped audio preparation closes. -/
def consumedUnderScope (evs : List DriverEv) : Prop :=
  ∀ a b i, evs.get? a = some (DriverEv.consumeSegment i) →
    evs.get? b = some DriverEv.scopeClose → a < b

/-- Text assembly of `transcribe_with_model`: each segment text is
`.strip()`ped, the list is `" ".join(...)`ed, and the result `.strip()`ped. -/
def joinSegmentTexts (segTexts : List String) : String :=
  (String.intercalate " " (segTexts.map String.trim)).trim

/-! ## In-memory WAV decode (`audio_io.py`)

`_decode_wav_bytes_to_array` is modelled from the point where the `wave`
module has yielded the header fields (`n_channels`, `sampwidth`,
`framerate`, `n_frames`) and the raw PCM payload `raw` (a byte list).
`np.frombuffer` over a little-endian signed dtype is byte-group composition
plus sign extension; a raised `ValueError` (bad payload size, `np.reshape`
mismatch, unsupported width) is `none`. -/

/-- Split a list into consecutive groups of `k` (the reshape `(-1, k)` view;
callers guarantee exact divisibility, mirroring numpy's reshape error). -/
def listChunks {α : Type} (k : ℕ) (xs : List α) : List (List α) :=
  if h : k = 0 ∨ xs.isEmpty then [] else xs.take k :: listChunks k (xs.drop k)
termination_by xs.length
decreasing_by
  push_neg at h
  have hk : 0 < k := Nat.pos_of_ne_zero h.1
  have hx : xs ≠ [] := by simpa [List.isEmpty_iff] using h.2
  have hlen : 0 < xs.length := List.length_pos.mpr hx
  simp only [List.length_drop]
  omega

/-- Little-endian composition of a byte group (`b0 | b1 << 8 | b2 << 16 | ...`;
the bytes occupy disjoint bit ranges, so bitwise-or is addition). -/
def leCompose : List ℕ → ℕ
  | [] => 0
  | b :: rest => b + 256 * leCompose rest

/-- Two's-complement sign extension of a `w`-byte value (the source's
`mask = signed & 0x800000; signed -= mask << 1` for 24-bit, and numpy's
signed dtypes for 16/32-bit). -/
def signExtend (w : ℕ) (v : ℕ) : ℤ :=
  if 2 ^ (8 * w - 1) ≤ v then (v : ℤ) - 2 ^ (8 * w) else (v : ℤ)

/-- `reshape(-1, C).mean(axis=1)`: element-wise channel average over groups
of `C` consecutive interleaved samples. -/
def channelMean (c : ℕ) (xs : List ℚ) : List ℚ :=
  (listChunks c xs).map (fun g => g.sum / (c : ℚ))

/-- `np.clip(x, -1.0, 1.0)` on one sample. -/
def clipUnit (x : ℚ) : ℚ := max (-1) (min 1 x)

/-- Python 3 `round` to the nearest integer, ties to even (banker's
rounding), as used in `int(round(...))`. -/
def pyRound (q : ℚ) : ℤ :=
  let f := ⌊q⌋
  if q - f < 1/2 then f
  else if 1/2 < q - f then f + 1
  else if Even f then f else f + 1

/-- `np.interp` at one query point over nodes `pts = zip(x_old, y_old)`
(`x_old` sorted): clamp below the first node, linear between consecutive
nodes, clamp above the last node. -/
def interpAt (x : ℚ) : List (ℚ × ℚ) → ℚ
  | [] => 0
  | (x0, y0) :: rest =>
    if x ≤ x0 then y0
    else
      match rest with
      | [] => y0
      | (x1, y1) :: _ =>
        if x ≤ x1 then y0 + (x - x0) * (y1 - y0) / (x1 - x0)
        else interpAt x rest

/-- `_linear_resample_mono_float32`: identity at equal rates and on the empty
buffer; otherwise resample to `new_len = max(1, round(n * target/orig))`
points by linear interpolation over the endpoint-free uniform grids
`x_old[i] = i/n`, `x_new[j] = j/new_len`. -/
def linearResample (waveform : List ℚ) (origSr targetSr : ℕ) : List ℚ :=
  if origSr = targetSr then waveform
  else if waveform.isEmpty then waveform
  else
    let n := waveform.length
    let newLen := (max 1 (pyRound ((n : ℚ) * ((targetSr : ℚ) / (origSr : ℚ))))).toNat
    let xOld := (List.range n).map (fun i : ℕ => (i : ℚ) / (n : ℚ))
    let pts := xOld.zip waveform
    (List.range newLen).map (fun j : ℕ => interpAt ((j : ℚ) / (newLen : ℚ)) pts)

/-- `np.frombuffer(raw, dtype)` for a `sampwidth`-byte PCM dtype: byte
groups composed little-endian, sign-extended except for the unsigned 8-bit
case (and the source's manual 24-bit composition is the same operation). -/
def wavInts (sampwidth : ℕ) (raw : List ℕ) : List ℤ :=
  (listChunks sampwidth raw).map
    (fun g => if sampwidth = 1 then (leCompose g : ℤ)
              else signExtend sampwidth (leCompose g))

/-- `if n_channels > 1: pcm = pcm.reshape(-1, n_channels).mean(axis=1)`. -/
def wavMono (nChannels : ℕ) (ps : List ℚ) : List ℚ :=
  if 1 < nChannels then channelMean nChannels ps else ps

/-- `_decode_wav_bytes_to_array` after WAV header parsing: `nChannels`,
`sampwidth`, `framerate` are the header fields and `raw` the PCM payload
bytes; the result is the mono float32 waveform at 16 kHz, or `none` where
the source raises (unsupported width, bad payload size, reshape mismatch).
In the 24-bit branch the source scales before averaging and does not clip;
in the 1/2/4-byte branch it averages the raw sample values, then scales
(with the unsigned-to-signed shift for 8-bit), then clips to `[-1, 1]`. -/
def decodeWavPcm (nChannels sampwidth framerate : ℕ) (raw : List ℕ) :
    Option (List ℚ) :=
  if sampwidth = 3 then
    if raw.length % 3 ≠ 0 then none
    else if 1 < nChannels ∧
        ((wavInts 3 raw).map (fun v : ℤ => (v : ℚ) / 2 ^ 23)).length % nChannels ≠ 0 then none
    else some (linearResample
      (wavMono nChannels ((wavInts 3 raw).map (fun v : ℤ => (v : ℚ) / 2 ^ 23)))
      framerate 16000)
  else if sampwidth = 1 ∨ sampwidth = 2 ∨ sampwidth = 4 then
    if raw.length % sampwidth ≠ 0 then none
    else if 1 < nChannels ∧
        ((wavInts sampwidth raw).map (fun v : ℤ => (v : ℚ))).length % nChannels ≠ 0 then none
    else some (linearResample
      ((if sampwidth = 1 then
          (wavMono nChannels ((wavInts sampwidth raw).map (fun v : ℤ => (v : ℚ)))).map
            (fun x => (x - 128) / 128)
        else
          (wavMono nChannels ((wavInts sampwidth raw).map (fun v : ℤ => (v : ℚ)))).map
            (fun x => x / (if sampwidth = 2 then (32768 : ℚ) else 2147483648))).map
        clipUnit)
      framerate 16000)
  else none

/-! ## Concrete scenarios used by witnesses and counterexamples -/

/-- A probe observation with no GPU and 16 GB RAM of which 8 GB available. -/
def snapCpu16 : ResourceSnapshot := { gpu := none, ram := some (16, 8) }

/-- A probe observation reporting nothing at all (both probes failed). -/
def snapEmpty : ResourceSnapshot := { gpu := none, ram := none }

/-- A probe observation with ample RAM. -/
def snapCpuBig : ResourceSnapshot := { gpu := none, ram := some (64, 60) }

/-- A probe stream that always returns `snapCpu16`. -/
def streamCpu16 : ℕ → ResourceSnapshot := fun _ => snapCpu16

/-- A probe stream whose first observation is empty and whose later
observations report ample RAM: the hardware picture changes between the
admission decision and the error-reporting re-probe. -/
def streamShift : ℕ → ResourceSnapshot := fun n => if n = 0 then snapEmpty else snapCpuBig

/-- Registry demo, caller 0 took the miss fast-path. -/
def regS1 : RegState 2 :=
  { model := none, lockHeld := none, count := 0,
    callers := fun j => if j = 0 then ⟨RegPC.waitLock, none⟩ else ⟨RegPC.start, none⟩ }

/-- Registry demo, both callers took the miss fast-path. -/
def regS2 : RegState 2 :=
  { model := none, lockHeld := none, count := 0, callers := fun _ => ⟨RegPC.waitLock, none⟩ }

/-- Registry demo, caller 0 holds the build lock. -/
def regS3 : RegState 2 :=
  { model := none, lockHeld := some 0, count := 0,
    callers := fun j => if j = 0 then ⟨RegPC.inLock, none⟩ else ⟨RegPC.waitLock, none⟩ }

/-- Registry demo, caller 0 is constructing the model under the lock. -/
def regS4 : RegState 2 :=
  { model := none, lockHeld := some 0, count := 0,
    callers := fun j => if j = 0 then ⟨RegPC.building, none⟩ else ⟨RegPC.waitLock, none⟩ }

/-- Registry demo, caller 0 published model `0` and released the lock. -/
def regS5 : RegState 2 :=
  { model := some 0, lockHeld := none, count := 1,
    callers := fun j => if j = 0 then ⟨RegPC.finished, some 0⟩ else ⟨RegPC.waitLock, none⟩ }

/-- Registry demo, caller 1 acquired the lock for its double-check. -/
def regS6 : RegState 2 :=
  { model := some 0, lockHeld := some 1, count := 1,
    callers := fun j => if j = 0 then ⟨RegPC.finished, some 0⟩ else ⟨RegPC.inLock, none⟩ }

/-- Registry demo, caller 1's double-check hit the cache; both finished. -/
def regS7 : RegState 2 :=
  { model := some 0, lockHeld := none, count := 1, callers := fun _ => ⟨RegPC.finished, some 0⟩ }

/-! ## Basic facts about the estimate tables -/

theorem MODEL_RESIDENT_GB_pos (m : String) : 0 < MODEL_RESIDENT_GB m := by
  unfold MODEL_RESIDENT_GB
  repeat' split
  all_goals norm_num

theorem COMPUTE_MULTIPLIER_pos (c : String) : 0 < COMPUTE_MULTIPLIER c := by
  unfold COMPUTE_MULTIPLIER
  repeat' split
  all_goals norm_num

theorem estimate_resident_pos (mgr : ResourceManager) (m c : String) (mins : ℚ) (b : ℤ) :
    0 < (mgr.estimate m c mins b).resident_gb :=
  mul_pos (MODEL_RESIDENT_GB_pos m) (COMPUTE_MULTIPLIER_pos c)

theorem estimate_transient_ge (mgr : ResourceManager) (m c : String) (mins : ℚ) (b : ℤ) :
    1/10 ≤ (mgr.estimate m c mins b).transient_gb :=
  le_max_left _ _

theorem estimate_cost_pos (mgr : ResourceManager) (m c : String) (mins : ℚ) (b : ℤ)
    (isLoaded : Bool) :
    0 < (if isLoaded then 0 else (mgr.estimate m c mins b).resident_gb) +
      (mgr.estimate m c mins b).transient_gb := by
  have h1 := estimate_resident_pos mgr m c mins b
  have h2 := estimate_transient_ge mgr m c mins b
  cases isLoaded <;> simp <;> linarith

/-! ## C3: the transient estimate formula -/

/-- C3 counterexample: at `model="tiny"`, `audio_minutes=0`, `beam_size=1`
the source returns `max(0.1, 0.2 * 0.2 * 1.0) = 0.1`, not the claimed bare
product `table[tiny] * max(0.2, 0) * max(1, 1/5) = 0.04`: there IS an
additional lower bound of 0.1 GB on the transient product. -/
theorem C3_counterexample :
    (defaultRM.estimate "tiny" "float16" 0 1).transient_gb = 1/10 ∧
    TRANSIENT_PER_MIN_GB "tiny" * max (2/10) (0 : ℚ) * max 1 ((1 : ℚ)/5) = 1/25 ∧
    (1 : ℚ)/10 ≠ 1/25 := by
  refine ⟨?_, by norm_num [TRANSIENT_PER_MIN_GB], by norm_num⟩
  show max (1/10) (TRANSIENT_PER_MIN_GB "tiny" * max (2/10) (0 : ℚ) * max 1 ((1 : ℚ)/5)) = 1/10
  norm_num [TRANSIENT_PER_MIN_GB]

/-- C3 (amended): `transient_gb` equals
`max(0.1, table[model] * max(0.2, audio_minutes) * max(1.0, beam_size/5))` —
the spec's product formula under an additional lower bound of 0.1 GB. -/
theorem C3_transient_formula (model compute : String) (audioMinutes : ℚ) (beam : ℤ) :
    (defaultRM.estimate model compute audioMinutes beam).transient_gb =
      max (1/10)
        (TRANSIENT_PER_MIN_GB model * max (2/10) audioMinutes * max 1 ((beam : ℚ) / 5)) :=
  rfl

/-! ## Characterisation of `can_accept` -/

theorem can_accept_fst_true (mgr : ResourceManager) (device : String)
    (est : Estimate) (isLoaded : Bool) (snap : ResourceSnapshot) :
    (mgr.can_accept device est isLoaded snap).1 = true ↔
      (if device = "cuda" then
        snap.gpu.isSome = true ∧
          (if isLoaded then 0 else est.resident_gb) + est.transient_gb ≤
            max 0 (snap.gpuFreeGb - mgr.gpu_margin_gb)
      else
        (if isLoaded then 0 else est.resident_gb) + est.transient_gb ≤
          max 0 (snap.ramAvailableGb - mgr.ram_margin_gb)) := by
  unfold ResourceManager.can_accept
  split_ifs <;> simp_all <;> split_ifs <;> simp_all [Option.isSome_iff_ne_none]

/-! ## C7: monotonicity of admission in the loaded flag -/

/-- C7: if a request is admissible when the model still has to be loaded, it
is admissible when the model is already loaded. -/
theorem C7_can_accept_monotone (mgr : ResourceManager) (device : String)
    (est : Estimate) (snap : ResourceSnapshot) (hres : 0 ≤ est.resident_gb)
    (h : (mgr.can_accept device est false snap).1 = true) :
    (mgr.can_accept device est true snap).1 = true := by
  rw [can_accept_fst_true] at h ⊢
  simp only [Bool.false_eq_true, if_false, if_true] at h ⊢
  split_ifs at h ⊢ with hdev
  · exact ⟨h.1, by linarith [h.2]⟩
  · linarith

/-! ## C9: which snapshot the rejection error carries -/

/-- C9 counterexample: with the hardware picture changing between probes
(`streamShift`), a rejected `admit_or_raise` attaches the snapshot of a
*second* probe (`snapCpuBig`) to the error, not the empty snapshot
(`streamShift 0 = snapEmpty`) on which the rejection was decided. -/
theorem streamShift_reject :
    defaultRM.can_accept "cpu" (defaultRM.estimate "tiny" "float32" 1 5) false
      (streamShift 0) = (false, some "Insufficient RAM") := by
  unfold ResourceManager.can_accept ResourceManager.estimate
  norm_num [streamShift, snapEmpty, ResourceSnapshot.ramAvailableGb, defaultRM,
    MODEL_RESIDENT_GB, COMPUTE_MULTIPLIER, TRANSIENT_PER_MIN_GB, DEFAULT_BEAM_BASELINE,
    CPU_RAM_MARGIN_GB, max_def]
  exact fun hh => absurd hh (by decide)

theorem C9_counterexample :
    defaultRM.admit_or_raise streamShift "cpu" "tiny" "float32" 1 5 false =
      Except.error { reason := "Insufficient RAM", snapshot := snapCpuBig } ∧
    streamShift 0 = snapEmpty ∧ snapCpuBig ≠ snapEmpty := by
  refine ⟨?_, rfl, by decide⟩
  simp only [ResourceManager.admit_or_raise, streamShift_reject]
  rfl

/-- C9 (amended): on rejection the error carries the snapshot of a fresh
probe taken after the decision (`probeStream 1`); the decision itself was
made on the earlier probe (`probeStream 0`), and the two may differ. -/
theorem C9_error_snapshot (mgr : ResourceManager) (probeStream : ℕ → ResourceSnapshot)
    (device model compute : String) (audioMinutes : ℚ) (beam : ℤ) (isLoaded : Bool)
    (e : ResourceRejected)
    (h : mgr.admit_or_raise probeStream device model compute audioMinutes beam isLoaded =
      Except.error e) :
    e.snapshot = probeStream 1 ∧
      (mgr.can_accept device (mgr.estimate model compute audioMinutes beam) isLoaded
        (probeStream 0)).1 = false := by
  simp only [ResourceManager.admit_or_raise] at h
  split_ifs at h with hok
  injection h with h2
  subst h2
  exact ⟨rfl, by simpa using hok⟩

/-! ## C2: admission rejects iff cost strictly exceeds free minus margin -/

theorem le_max_zero_iff {c x : ℚ} (hc : 0 < c) : c ≤ max 0 x ↔ c ≤ x := by
  rw [le_max_iff]
  constructor
  · rintro (h | h)
    · linarith
    · exact h
  · exact fun h => Or.inr h

theorem admit_or_raise_ok_iff (mgr : ResourceManager) (stream : ℕ → ResourceSnapshot)
    (device m c : String) (mins : ℚ) (b : ℤ) (l : Bool) :
    mgr.admit_or_raise stream device m c mins b l = Except.ok (mgr.estimate m c mins b) ↔
      (mgr.can_accept device (mgr.estimate m c mins b) l (stream 0)).1 = true := by
  simp only [ResourceManager.admit_or_raise]
  split_ifs with hok <;> simp [hok]

theorem admit_or_raise_error_iff (mgr : ResourceManager) (stream : ℕ → ResourceSnapshot)
    (device m c : String) (mins : ℚ) (b : ℤ) (l : Bool) :
    (∃ e, mgr.admit_or_raise stream device m c mins b l = Except.error e) ↔
      ¬(mgr.can_accept device (mgr.estimate m c mins b) l (stream 0)).1 = true := by
  simp only [ResourceManager.admit_or_raise]
  split_ifs with hok <;> simp [hok]

/-- C2: with the default margins, `admit_or_raise` raises `ResourceRejected`
iff the effective cost `(isLoaded ? 0 : resident) + transient` strictly
exceeds `free - margin` on the decision snapshot (`gpu_free_gb - 1.5` on
cuda, `ram_available_gb - 2.0` on cpu), and otherwise returns the
estimate. -/
theorem C2_admit_or_raise_iff (probeStream : ℕ → ResourceSnapshot)
    (device model compute : String) (audioMinutes : ℚ) (beam : ℤ) (isLoaded : Bool)
    (free margin : ℚ)
    (hdev : (device = "cuda" ∧ (probeStream 0).gpu.isSome = true ∧
              free = (probeStream 0).gpuFreeGb ∧ margin = 3/2) ∨
            (device = "cpu" ∧ (probeStream 0).ram.isSome = true ∧
              free = (probeStream 0).ramAvailableGb ∧ margin = 2)) :
    ((∃ e, defaultRM.admit_or_raise probeStream device model compute audioMinutes beam
        isLoaded = Except.error e) ↔
      free - margin <
        (if isLoaded then 0
          else (defaultRM.estimate model compute audioMinutes beam).resident_gb) +
          (defaultRM.estimate model compute audioMinutes beam).transient_gb) ∧
    (defaultRM.admit_or_raise probeStream device model compute audioMinutes beam isLoaded =
        Except.ok (defaultRM.estimate model compute audioMinutes beam) ↔
      (if isLoaded then 0
          else (defaultRM.estimate model compute audioMinutes beam).resident_gb) +
          (defaultRM.estimate model compute audioMinutes beam).transient_gb ≤
        free - margin) := by
  have hcost := estimate_cost_pos defaultRM model compute audioMinutes beam isLoaded
  have hcan : (defaultRM.can_accept device (defaultRM.estimate model compute audioMinutes beam)
      isLoaded (probeStream 0)).1 = true ↔
      (if isLoaded then 0
        else (defaultRM.estimate model compute audioMinutes beam).resident_gb) +
        (defaultRM.estimate model compute audioMinutes beam).transient_gb ≤ free - margin := by
    rw [can_accept_fst_true]
    rcases hdev with ⟨hd, hg, hf, hm⟩ | ⟨hd, hr, hf, hm⟩
    · subst hd hf hm
      rw [if_pos rfl]
      have hmargin : defaultRM.gpu_margin_gb = 3/2 := rfl
      rw [hmargin]
      simp only [hg, true_and]
      exact le_max_zero_iff hcost
    · subst hd hf hm
      rw [if_neg (by decide)]
      have hmargin : defaultRM.ram_margin_gb = 2 := rfl
      rw [hmargin]
      exact le_max_zero_iff hcost
  constructor
  · rw [admit_or_raise_error_iff, hcan, not_le]
  · rw [admit_or_raise_ok_iff, hcan]

/-! ## C6: the concurrency hint -/

theorem max_one_floor_max_zero (x t : ℚ) (ht : 0 < t) :
    max 1 ⌊max 0 x / t⌋ = max 1 ⌊x / t⌋ := by
  rcases le_total 0 x with hx | hx
  · rw [max_eq_right hx]
  · rw [max_eq_left hx]
    have h1 : (⌊(0 : ℚ) / t⌋ : ℤ) = 0 := by norm_num
    have h2 : ⌊x / t⌋ ≤ 0 := by
      have : x / t ≤ 0 := div_nonpos_of_nonpos_of_nonneg hx (le_of_lt ht)
      exact Int.floor_nonpos this
    rw [h1]
    omega

/-- C6: `concurrency_hint` returns 0 when cuda is requested and no GPU is
present; with a present device it returns
`max(1, floor((free - margin) / transient))`, which is at least 1; the
`DEFAULT_*_CONCURRENCY` fallbacks are unreachable because the divisor is
clamped to at least 0.1. -/
theorem C6_concurrency_hint (device : String) (est : Estimate) (snap : ResourceSnapshot)
    (ht : 1/10 ≤ est.transient_gb) :
    (device = "cuda" → snap.gpu = none → defaultRM.concurrency_hint device est snap = 0) ∧
    (device = "cuda" → ∀ t f, snap.gpu = some (t, f) →
      defaultRM.concurrency_hint device est snap = max 1 ⌊(f - 3/2) / est.transient_gb⌋) ∧
    (device ≠ "cuda" → ∀ t a, snap.ram = some (t, a) →
      defaultRM.concurrency_hint device est snap = max 1 ⌊(a - 2) / est.transient_gb⌋) ∧
    ((device = "cuda" → snap.gpu.isSome = true) → 1 ≤ defaultRM.concurrency_hint device est snap) := by
  have htpos : (0 : ℚ) < est.transient_gb := lt_of_lt_of_le (by norm_num) ht
  have hmax : max est.transient_gb (1/10) = est.transient_gb := max_eq_left ht
  unfold ResourceManager.concurrency_hint
  rw [hmax]
  refine ⟨?_, ?_, ?_, ?_⟩
  · intro hd hg
    rw [if_pos hd, if_pos (by simp [hg])]
  · intro hd t f hg
    rw [if_pos hd, if_neg (by simp [hg]), if_neg (by linarith)]
    have hfree : snap.gpuFreeGb = f := by simp [ResourceSnapshot.gpuFreeGb, hg]
    have hmargin : defaultRM.gpu_margin_gb = 3/2 := rfl
    rw [hfree, hmargin, max_one_floor_max_zero _ _ htpos]
    rw [if_neg (by positivity)]
  · intro hd t a hr
    rw [if_neg hd, if_neg (by linarith)]
    have hfree : snap.ramAvailableGb = a := by simp [ResourceSnapshot.ramAvailableGb, hr]
    have hmargin : defaultRM.ram_margin_gb = 2 := rfl
    rw [hfree, hmargin, max_one_floor_max_zero _ _ htpos]
    rw [if_neg (by positivity)]
  · intro havail
    by_cases hd : device = "cuda"
    · rw [if_pos hd]
      have hg : snap.gpu.isSome = true := havail hd
      rw [if_neg (by simp [hg]), if_neg (by linarith)]
      have hr1 : (1 : ℤ) ≤
          max 1 ⌊max 0 (snap.gpuFreeGb - defaultRM.gpu_margin_gb) / est.transient_gb⌋ :=
        le_max_left _ _
      rw [if_neg (by intro h0; rw [h0] at hr1; exact absurd hr1 (by norm_num))]
      exact hr1
    · rw [if_neg hd, if_neg (by linarith)]
      have hr1 : (1 : ℤ) ≤
          max 1 ⌊max 0 (snap.ramAvailableGb - defaultRM.ram_margin_gb) / est.transient_gb⌋ :=
        le_max_left _ _
      rw [if_neg (by intro h0; rw [h0] at hr1; exact absurd hr1 (by norm_num))]
      exact hr1

/-! ## C4: the driver consumes the lazy segments after the scope closes -/

/-- C4: in the event order of `transcribe_with_model` on a bytes input that
fell back to a temp file, with one lazy segment, the segment consumption
does NOT happen under the scoped audio preparation: the `with` block (and
the temp-file deletion) closes before the `for segment in segments` loop
runs, contradicting the claimed ordering. -/
theorem C4_consume_after_scope_close :
    ¬consumedUnderScope (transcribeEvents true 1) ∧
    (transcribeEvents true 1).get? 3 = some DriverEv.scopeClose ∧
    (transcribeEvents true 1).get? 4 = some (DriverEv.consumeSegment 0) := by
  refine ⟨?_, rfl, rfl⟩
  intro h
  have h43 : (4 : ℕ) < 3 := h 4 3 0 rfl rfl
  omega

/-! ## C5: key canonicalisation -/

/-- C5 counterexample: the device string `"auto"` lies outside `{cpu, cuda}`
yet, with CUDA available, it canonicalises to `cuda`, not `cpu` — the
clause `any device outside the set maps to cpu` fails for `auto`. -/
theorem C5_counterexample :
    ¬("auto" = "cpu" ∨ "auto" = "cuda") ∧
    (WhisperModelRegistry.key true "base" "auto" "float16").device = "cuda" := by
  exact ⟨by decide, rfl⟩

/-- C5 (amended): every canonicalised key has `device ∈ {cpu, cuda}` and
`compute_type ∈ {float32, float16, int8}`; the mapping is a total function
of the inputs and the CUDA-availability observation; any *non-`auto`* device
outside the set maps to `cpu` (`auto` resolves to `cuda` when CUDA is
available, else `cpu`), and any compute outside the set maps to `float32`
on cpu and `float16` on cuda. -/
theorem C5_key_canonical (cuda : Bool) (name d c : String) :
    ((WhisperModelRegistry.key cuda name d c).device = "cpu" ∨
      (WhisperModelRegistry.key cuda name d c).device = "cuda") ∧
    ((WhisperModelRegistry.key cuda name d c).compute_type = "float32" ∨
      (WhisperModelRegistry.key cuda name d c).compute_type = "float16" ∨
      (WhisperModelRegistry.key cuda name d c).compute_type = "int8") ∧
    (d ≠ "auto" → d ≠ "cpu" → d ≠ "cuda" →
      (WhisperModelRegistry.key cuda name d c).device = "cpu") ∧
    (c ≠ "float32" → c ≠ "float16" → c ≠ "int8" →
      (WhisperModelRegistry.key cuda name d c).compute_type =
        (if (WhisperModelRegistry.key cuda name d c).device = "cpu"
          then "float32" else "float16")) := by
  unfold WhisperModelRegistry.key resolve_auto_device_compute
  refine ⟨?_, ?_, ?_, ?_⟩ <;> simp only <;> split_ifs <;> simp_all <;> tauto

/-! ## C10: a missing RAM reading rejects every cpu request -/

/-- C10: when the snapshot has no RAM observation, available RAM is read as
0 GB, so any cpu request with positive effective cost is rejected. -/
theorem C10_missing_ram_rejects (est : Estimate) (isLoaded : Bool)
    (snap : ResourceSnapshot) (hram : snap.ram = none)
    (hpos : 0 < (if isLoaded then 0 else est.resident_gb) + est.transient_gb) :
    defaultRM.can_accept "cpu" est isLoaded snap = (false, some "Insufficient RAM") := by
  unfold ResourceManager.can_accept
  have havail : snap.ramAvailableGb = 0 := by
    simp [ResourceSnapshot.ramAvailableGb, hram]
  rw [if_neg (by decide)]
  have hfree : max 0 (snap.ramAvailableGb - defaultRM.ram_margin_gb) = 0 := by
    rw [havail]
    show max 0 (0 - CPU_RAM_MARGIN_GB) = 0
    norm_num [CPU_RAM_MARGIN_GB]
  rw [if_neg]
  intro hle
  rw [hfree] at hle
  cases isLoaded <;> simp_all <;> linarith

/-! ## C1: exactly-once construction in `get_or_create` -/

theorem regInv_init (n : ℕ) : RegInv (regInit n) := by
  unfold RegInv regInit
  refine ⟨?_, ?_, ?_, ?_, ?_, ?_⟩ <;> simp

theorem regInv_step {n : ℕ} {s s' : RegState n} (hinv : RegInv s) (hst : RegStep s s') :
    RegInv s' := by
  obtain ⟨h1, h2, h3, h4, h5, h6⟩ := hinv
  cases hst with
  | fastHit i m hpc hm hci hcj hm' hl' hk' =>
    refine ⟨?_, ?_, ?_, ?_, ?_, ?_⟩
    · intro j hj
      rcases eq_or_ne j i with rfl | hne
      · rw [hci] at hj; simp at hj
      · rw [hcj j hne] at hj
        rw [hl']
        exact h1 j hj
    · intro m' hm2
      rw [hm'] at hm2
      obtain ⟨he, hc⟩ := h2 m' hm2
      exact ⟨he, by rw [hk']; exact hc⟩
    · intro hm2
      rw [hm'] at hm2
      rw [hk']
      exact h3 hm2
    · intro j hj
      rcases eq_or_ne j i with rfl | hne
      · rw [hci] at hj; simp at hj
      · rw [hcj j hne] at hj
        rw [hm']
        exact h4 j hj
    · intro j r hr
      rcases eq_or_ne j i with rfl | hne
      · rw [hci] at hr
        simp at hr
        rw [hm', hm, hr]
      · rw [hcj j hne] at hr
        rw [hm']
        exact h5 j r hr
    · intro j hj
      rcases eq_or_ne j i with rfl | hne
      · rw [hci]; simp
      · rw [hcj j hne] at hj ⊢
        exact h6 j hj
  | fastMiss i hpc hm hci hcj hm' hl' hk' =>
    refine ⟨?_, ?_, ?_, ?_, ?_, ?_⟩
    · intro j hj
      rcases eq_or_ne j i with rfl | hne
      · rw [hci] at hj; simp at hj
      · rw [hcj j hne] at hj
        rw [hl']
        exact h1 j hj
    · intro m' hm2
      rw [hm'] at hm2
      obtain ⟨he, hc⟩ := h2 m' hm2
      exact ⟨he, by rw [hk']; exact hc⟩
    · intro hm2
      rw [hm'] at hm2
      rw [hk']
      exact h3 hm2
    · intro j hj
      rcases eq_or_ne j i with rfl | hne
      · rw [hci] at hj; simp at hj
      · rw [hcj j hne] at hj
        rw [hm']
        exact h4 j hj
    · intro j r hr
      rcases eq_or_ne j i with rfl | hne
      · rw [hci] at hr
        simp at hr
        rw [hm']
        exact h5 _ r hr
      · rw [hcj j hne] at hr
        rw [hm']
        exact h5 j r hr
    · intro j hj
      rcases eq_or_ne j i with rfl | hne
      · rw [hci] at hj; simp at hj
      · rw [hcj j hne] at hj ⊢
        exact h6 j hj
  | acquire i hpc hl hci hcj hm' hl' hk' =>
    refine ⟨?_, ?_, ?_, ?_, ?_, ?_⟩
    · intro j hj
      rcases eq_or_ne j i with rfl | hne
      · rw [hl']
      · rw [hcj j hne] at hj
        have h7 := h1 j hj
        rw [hl] at h7
        exact Option.noConfusion h7
    · intro m' hm2
      rw [hm'] at hm2
      obtain ⟨he, hc⟩ := h2 m' hm2
      exact ⟨he, by rw [hk']; exact hc⟩
    · intro hm2
      rw [hm'] at hm2
      rw [hk']
      exact h3 hm2
    · intro j hj
      rcases eq_or_ne j i with rfl | hne
      · rw [hci] at hj; simp at hj
      · rw [hcj j hne] at hj
        rw [hm']
        exact h4 j hj
    · intro j r hr
      rcases eq_or_ne j i with rfl | hne
      · rw [hci] at hr
        simp at hr
        rw [hm']
        exact h5 _ r hr
      · rw [hcj j hne] at hr
        rw [hm']
        exact h5 j r hr
    · intro j hj
      rcases eq_or_ne j i with rfl | hne
      · rw [hci] at hj; simp at hj
      · rw [hcj j hne] at hj ⊢
        exact h6 j hj
  | critHit i m hpc hl hm hci hcj hm' hl' hk' =>
    refine ⟨?_, ?_, ?_, ?_, ?_, ?_⟩
    · intro j hj
      rcases eq_or_ne j i with rfl | hne
      · rw [hci] at hj; simp at hj
      · rw [hcj j hne] at hj
        have h7 := h1 j hj
        rw [hl] at h7
        injection h7 with h7
        exact absurd h7.symm hne
    · intro m' hm2
      rw [hm'] at hm2
      obtain ⟨he, hc⟩ := h2 m' hm2
      exact ⟨he, by rw [hk']; exact hc⟩
    · intro hm2
      rw [hm'] at hm2
      rw [hk']
      exact h3 hm2
    · intro j hj
      rcases eq_or_ne j i with rfl | hne
      · rw [hci] at hj; simp at hj
      · rw [hcj j hne] at hj
        have h8 := h4 j hj
        rw [h8] at hm
        exact Option.noConfusion hm
    · intro j r hr
      rcases eq_or_ne j i with rfl | hne
      · rw [hci] at hr
        simp at hr
        rw [hm', hm, hr]
      · rw [hcj j hne] at hr
        rw [hm']
        exact h5 j r hr
    · intro j hj
      rcases eq_or_ne j i with rfl | hne
      · rw [hci]; simp
      · rw [hcj j hne] at hj ⊢
        exact h6 j hj
  | beginBuild i hpc hl hm hci hcj hm' hl' hk' =>
    refine ⟨?_, ?_, ?_, ?_, ?_, ?_⟩
    · intro j hj
      rcases eq_or_ne j i with rfl | hne
      · rw [hl', hl]
      · rw [hcj j hne] at hj
        have h7 := h1 j hj
        rw [hl] at h7
        injection h7 with h7
        exact absurd h7.symm hne
    · intro m' hm2
      rw [hm'] at hm2
      obtain ⟨he, hc⟩ := h2 m' hm2
      exact ⟨he, by rw [hk']; exact hc⟩
    · intro hm2
      rw [hm'] at hm2
      rw [hk']
      exact h3 hm2
    · intro j hj
      rw [hm']
      rcases eq_or_ne j i with rfl | hne
      · exact hm
      · rw [hcj j hne] at hj
        exact h4 j hj
    · intro j r hr
      rcases eq_or_ne j i with rfl | hne
      · rw [hci] at hr
        simp at hr
        rw [hm']
        exact h5 _ r hr
      · rw [hcj j hne] at hr
        rw [hm']
        exact h5 j r hr
    · intro j hj
      rcases eq_or_ne j i with rfl | hne
      · rw [hci] at hj; simp at hj
      · rw [hcj j hne] at hj ⊢
        exact h6 j hj
  | finishBuild i hpc hl hci hcj hm' hl' hk' =>
    have hmnone : s.model = none := h4 i hpc
    have hc0 : s.count = 0 := h3 hmnone
    refine ⟨?_, ?_, ?_, ?_, ?_, ?_⟩
    · intro j hj
      rcases eq_or_ne j i with rfl | hne
      · rw [hci] at hj; simp at hj
      · rw [hcj j hne] at hj
        have h7 := h1 j hj
        rw [hl] at h7
        injection h7 with h7
        exact absurd h7.symm hne
    · intro m' hm2
      rw [hm'] at hm2
      injection hm2 with hm2
      constructor
      · omega
      · rw [hk']; omega
    · intro hm2
      rw [hm'] at hm2
      exact Option.noConfusion hm2
    · intro j hj
      rcases eq_or_ne j i with rfl | hne
      · rw [hci] at hj; simp at hj
      · rw [hcj j hne] at hj
        have h7 := h1 j (Or.inr hj)
        rw [hl] at h7
        injection h7 with h7
        exact absurd h7.symm hne
    · intro j r hr
      rcases eq_or_ne j i with rfl | hne
      · rw [hci] at hr
        simp at hr
        rw [hm', hr]
      · rw [hcj j hne] at hr
        have h8 := h5 j r hr
        rw [hmnone] at h8
        exact Option.noConfusion h8
    · intro j hj
      rcases eq_or_ne j i with rfl | hne
      · rw [hci]; simp
      · rw [hcj j hne] at hj ⊢
        exact h6 j hj

theorem regInv_reach {n : ℕ} {s : RegState n} (h : RegReach s) : RegInv s := by
  unfold RegReach at h
  induction h with
  | refl => exact regInv_init n
  | tail _ hst ih => exact regInv_step ih hst

/-- C1: in every interleaving of `n ≥ 1` concurrent `get_or_create` calls
for one unloaded key in which all callers finish, the `WhisperModel`
constructor was invoked exactly once, and every caller received the single
published model reference. -/
theorem C1_get_or_create_once {n : ℕ} (s : RegState n) (hreach : RegReach s) (hn : 0 < n)
    (hfin : ∀ i, (s.callers i).pc = RegPC.finished) :
    ∃ m : ℕ, s.model = some m ∧ s.count = 1 ∧ ∀ i, (s.callers i).res = some m := by
  obtain ⟨h1, h2, h3, h4, h5, h6⟩ := regInv_reach hreach
  have hi0 : (s.callers ⟨0, hn⟩).res ≠ none := h6 _ (hfin _)
  obtain ⟨r, hr⟩ : ∃ r, (s.callers ⟨0, hn⟩).res = some r := by
    cases hcase : (s.callers ⟨0, hn⟩).res with
    | none => exact absurd hcase hi0
    | some v => exact ⟨v, rfl⟩
  have hmodel : s.model = some r := h5 _ r hr
  obtain ⟨hr0, hcount⟩ := h2 r hmodel
  refine ⟨r, hmodel, hcount, ?_⟩
  intro i
  have hi : (s.callers i).res ≠ none := h6 i (hfin i)
  cases hcase : (s.callers i).res with
  | none => exact absurd hcase hi
  | some v =>
    have h9 := h5 i v hcase
    rw [hmodel] at h9
    injection h9 with h9
    rw [← h9]

theorem regReach7 : RegReach regS7 := by
  have t1 : RegStep (regInit 2) regS1 :=
    RegStep.fastMiss _ _ 0 (by decide) rfl (by decide) (by decide) rfl rfl rfl
  have t2 : RegStep regS1 regS2 :=
    RegStep.fastMiss _ _ 1 (by decide) rfl (by decide) (by decide) rfl rfl rfl
  have t3 : RegStep regS2 regS3 :=
    RegStep.acquire _ _ 0 (by decide) rfl (by decide) (by decide) rfl rfl rfl
  have t4 : RegStep regS3 regS4 :=
    RegStep.beginBuild _ _ 0 (by decide) rfl rfl (by decide) (by decide) rfl rfl rfl
  have t5 : RegStep regS4 regS5 :=
    RegStep.finishBuild _ _ 0 (by decide) rfl (by decide) (by decide) rfl rfl rfl
  have t6 : RegStep regS5 regS6 :=
    RegStep.acquire _ _ 1 (by decide) rfl (by decide) (by decide) rfl rfl rfl
  have t7 : RegStep regS6 regS7 :=
    RegStep.critHit _ _ 1 0 (by decide) rfl rfl (by decide) (by decide) rfl rfl rfl
  exact Relation.ReflTransGen.head t1 (Relation.ReflTransGen.head t2
    (Relation.ReflTransGen.head t3 (Relation.ReflTransGen.head t4
      (Relation.ReflTransGen.head t5 (Relation.ReflTransGen.head t6
        (Relation.ReflTransGen.head t7 Relation.ReflTransGen.refl))))))

/-- C1 witness: a concrete 7-step interleaving of two callers in which
caller 0 builds under the lock and caller 1's double-check hits the cache. -/
theorem C1_witness :
    ∃ m : ℕ, regS7.model = some m ∧ regS7.count = 1 ∧
      ∀ i, (regS7.callers i).res = some m :=
  C1_get_or_create_once regS7 regReach7 (by decide) (by decide)

/-! ## C8: the in-memory WAV decode -/

theorem listChunks_nil {α : Type} (k : ℕ) : listChunks k ([] : List α) = [] := by
  rw [listChunks]
  simp

theorem listChunks_cons_eq {α : Type} (k : ℕ) (xs : List α) (hk : k ≠ 0) (hxs : xs ≠ []) :
    listChunks k xs = xs.take k :: listChunks k (xs.drop k) := by
  rw [listChunks]
  rw [dif_neg]
  push_neg
  exact ⟨hk, by simpa [List.isEmpty_iff] using hxs⟩

theorem listChunks_length_mul {α : Type} (k : ℕ) (hk : 0 < k) :
    ∀ (N : ℕ) (xs : List α), xs.length = N * k → (listChunks k xs).length = N := by
  intro N
  induction N with
  | zero =>
    intro xs h
    have hnil : xs = [] := List.length_eq_zero.mp (by simpa using h)
    subst hnil
    simp [listChunks_nil]
  | succ N ih =>
    intro xs h
    have hxs : xs ≠ [] := by
      intro he
      subst he
      simp at h
      have := Nat.mul_pos (Nat.succ_pos N) hk
      omega
    have hdrop : (xs.drop k).length = N * k := by
      rw [List.length_drop, h]
      have : (N + 1) * k = N * k + k := by ring
      omega
    rw [listChunks_cons_eq k xs hk.ne' hxs]
    simp only [List.length_cons, ih (xs.drop k) hdrop]

theorem listChunks_forall {α : Type} (k : ℕ) (P : α → Prop) :
    ∀ (L : ℕ) (xs : List α), xs.length ≤ L → (∀ y ∈ xs, P y) →
      ∀ g ∈ listChunks k xs, g.length ≤ k ∧ ∀ y ∈ g, P y := by
  intro L
  induction L with
  | zero =>
    intro xs hlen hp g hg
    have hnil : xs = [] := List.length_eq_zero.mp (by omega)
    subst hnil
    rw [listChunks_nil] at hg
    exact absurd hg (List.not_mem_nil g)
  | succ L ih =>
    intro xs hlen hp g hg
    by_cases hk : k = 0
    · subst hk
      rw [listChunks] at hg
      rw [dif_pos (Or.inl rfl)] at hg
      exact absurd hg (List.not_mem_nil g)
    · by_cases hxs : xs = []
      · subst hxs
        rw [listChunks_nil] at hg
        exact absurd hg (List.not_mem_nil g)
      · rw [listChunks_cons_eq k xs hk hxs] at hg
        rcases List.mem_cons.mp hg with rfl | hg2
        · exact ⟨List.length_take_le k xs, fun y hy => hp y (List.mem_of_mem_take hy)⟩
        · refine ih (xs.drop k) ?_ (fun y hy => hp y (List.mem_of_mem_drop hy)) g hg2
          rw [List.length_drop]
          have hx1 : 0 < xs.length := List.length_pos.mpr hxs
          omega

theorem list_sum_bounds :
    ∀ g : List ℚ, (∀ y ∈ g, -1 ≤ y ∧ y ≤ 1) →
      -(g.length : ℚ) ≤ g.sum ∧ g.sum ≤ (g.length : ℚ) := by
  intro g
  induction g with
  | nil => intro _; simp
  | cons a t ih =>
    intro hp
    have ha := hp a (List.mem_cons_self a t)
    have ht := ih (fun y hy => hp y (List.mem_cons_of_mem a hy))
    simp only [List.sum_cons, List.length_cons]
    push_cast
    constructor <;> linarith [ht.1, ht.2, ha.1, ha.2]

theorem channelMean_bounds (k : ℕ) (hk : 0 < k) (xs : List ℚ)
    (hxs : ∀ y ∈ xs, -1 ≤ y ∧ y ≤ 1) :
    ∀ z ∈ channelMean k xs, -1 ≤ z ∧ z ≤ 1 := by
  intro z hz
  unfold channelMean at hz
  rcases List.mem_map.mp hz with ⟨g, hg, rfl⟩
  obtain ⟨hglen, hgmem⟩ :=
    listChunks_forall k (fun y => -1 ≤ y ∧ y ≤ 1) xs.length xs le_rfl hxs g hg
  obtain ⟨hs1, hs2⟩ := list_sum_bounds g hgmem
  have hkq : (0 : ℚ) < k := by exact_mod_cast hk
  have hlk : (g.length : ℚ) ≤ (k : ℚ) := by exact_mod_cast hglen
  constructor
  · rw [le_div_iff hkq]
    linarith
  · rw [div_le_iff hkq]
    linarith

theorem clipUnit_bounds (x : ℚ) : -1 ≤ clipUnit x ∧ clipUnit x ≤ 1 := by
  unfold clipUnit
  exact ⟨le_max_left _ _, max_le (by norm_num) (min_le_left _ _)⟩

theorem interpAt_bounds :
    ∀ pts : List (ℚ × ℚ), (∀ p ∈ pts, -1 ≤ p.2 ∧ p.2 ≤ 1) →
      ∀ x : ℚ, -1 ≤ interpAt x pts ∧ interpAt x pts ≤ 1 := by
  intro pts
  induction pts with
  | nil =>
    intro _ x
    simp [interpAt]
  | cons p rest ih =>
    intro hp x
    obtain ⟨x0, y0⟩ := p
    have hy0 := hp (x0, y0) (List.mem_cons_self _ _)
    simp only at hy0
    cases rest with
    | nil =>
      simp only [interpAt]
      split_ifs <;> exact hy0
    | cons q t =>
      obtain ⟨x1, y1⟩ := q
      have hy1 := hp (x1, y1) (List.mem_cons_of_mem _ (List.mem_cons_self _ _))
      simp only at hy1
      simp only [interpAt]
      split_ifs with h0 h1
      · exact hy0
      · push_neg at h0
        have hd : 0 < x1 - x0 := by linarith
        have ht0 : 0 ≤ (x - x0) / (x1 - x0) := div_nonneg (by linarith) (le_of_lt hd)
        have ht1 : (x - x0) / (x1 - x0) ≤ 1 := by
          rw [div_le_one hd]
          linarith
        have hval : y0 + (x - x0) * (y1 - y0) / (x1 - x0) =
            y0 * (1 - (x - x0) / (x1 - x0)) + y1 * ((x - x0) / (x1 - x0)) := by
          field_simp
          ring
        rw [hval]
        have e1 : (-1) * (1 - (x - x0) / (x1 - x0)) ≤ y0 * (1 - (x - x0) / (x1 - x0)) :=
          mul_le_mul_of_nonneg_right hy0.1 (by linarith)
        have e2 : (-1) * ((x - x0) / (x1 - x0)) ≤ y1 * ((x - x0) / (x1 - x0)) :=
          mul_le_mul_of_nonneg_right hy1.1 ht0
        have e3 : y0 * (1 - (x - x0) / (x1 - x0)) ≤ 1 * (1 - (x - x0) / (x1 - x0)) :=
          mul_le_mul_of_nonneg_right hy0.2 (by linarith)
        have e4 : y1 * ((x - x0) / (x1 - x0)) ≤ 1 * ((x - x0) / (x1 - x0)) :=
          mul_le_mul_of_nonneg_right hy1.2 ht0
        constructor <;> linarith
      · have hrec := ih (fun p hp2 => hp p (List.mem_cons_of_mem _ hp2)) x
        simp only [interpAt] at hrec
        rw [if_neg h1] at hrec
        exact hrec

theorem linearResample_same (w : List ℚ) (o : ℕ) : linearResample w o o = w := by
  unfold linearResample
  simp

theorem linearResample_nil (o t : ℕ) : linearResample [] o t = [] := by
  unfold linearResample
  split_ifs <;> simp_all

theorem linearResample_bounds (w : List ℚ) (o t : ℕ)
    (hw : ∀ y ∈ w, -1 ≤ y ∧ y ≤ 1) :
    ∀ z ∈ linearResample w o t, -1 ≤ z ∧ z ≤ 1 := by
  intro z hz
  unfold linearResample at hz
  split_ifs at hz with h1 h2
  · exact hw z hz
  · exact hw z hz
  · rcases List.mem_map.mp hz with ⟨j, _, rfl⟩
    apply interpAt_bounds
    intro p hp
    obtain ⟨a, b⟩ := p
    have hmem := List.of_mem_zip hp
    exact hw b hmem.2

theorem linearResample_length_ne (w : List ℚ) (o t : ℕ) (ho : o ≠ t) (hw : w ≠ []) :
    (linearResample w o t).length =
      (max 1 (pyRound ((w.length : ℚ) * ((t : ℚ) / (o : ℚ))))).toNat := by
  unfold linearResample
  rw [if_neg ho, if_neg (by simpa [List.isEmpty_iff] using hw)]
  rw [List.length_map, List.length_range]

theorem pyRound_zero : pyRound 0 = 0 := by
  unfold pyRound
  norm_num

theorem decode_assemble (mono : List ℚ) (F N : ℕ) (hmlen : mono.length = N)
    (hmb : ∀ y ∈ mono, -1 ≤ y ∧ y ≤ 1) :
    (∀ x ∈ linearResample mono F 16000, -1 ≤ x ∧ x ≤ 1) ∧
    (F = 16000 → (linearResample mono F 16000).length = N) ∧
    (F ≠ 16000 → (((linearResample mono F 16000).length : ℤ) -
      max 1 (pyRound ((N : ℚ) * (16000 / (F : ℚ))))).natAbs ≤ 1) := by
  refine ⟨linearResample_bounds mono F 16000 hmb, ?_, ?_⟩
  · intro hF16
    subst hF16
    rw [linearResample_same]
    exact hmlen
  · intro hF16
    by_cases hm : mono = []
    · subst hm
      rw [linearResample_nil]
      have hN0 : N = 0 := by simpa using hmlen.symm
      subst hN0
      norm_num [pyRound_zero]
    · rw [linearResample_length_ne mono F 16000 hF16 hm, hmlen]
      have h1 : (1 : ℤ) ≤ max 1 (pyRound ((N : ℚ) * ((16000 : ℕ) / (F : ℚ)))) :=
        le_max_left _ _
      rw [Int.toNat_of_nonneg (le_trans zero_le_one h1)]
      norm_num

theorem leCompose_lt (g : List ℕ) (hb : ∀ b ∈ g, b < 256) :
    leCompose g < 256 ^ g.length := by
  induction g with
  | nil => simp [leCompose]
  | cons b t ih =>
    have hb0 := hb b (List.mem_cons_self b t)
    have ht := ih (fun y hy => hb y (List.mem_cons_of_mem b hy))
    simp only [leCompose, List.length_cons]
    have hpow : 256 ^ (t.length + 1) = 256 * 256 ^ t.length := by ring
    rw [hpow]
    omega

theorem signExtend_bounds (w v : ℕ) (hw : 1 ≤ w) (hv : v < 2 ^ (8 * w)) :
    -(2 ^ (8 * w - 1) : ℤ) ≤ signExtend w v ∧ signExtend w v < 2 ^ (8 * w - 1) := by
  have hsplit : (2 : ℤ) ^ (8 * w) = 2 ^ (8 * w - 1) * 2 := by
    rw [← pow_succ]
    congr 1
    omega
  have hvz : (v : ℤ) < 2 ^ (8 * w) := by exact_mod_cast hv
  have hv0 : (0 : ℤ) ≤ (v : ℤ) := Int.natCast_nonneg v
  have hppos : (0 : ℤ) < 2 ^ (8 * w - 1) := by positivity
  unfold signExtend
  split_ifs with h
  · have hz : (2 : ℤ) ^ (8 * w - 1) ≤ (v : ℤ) := by exact_mod_cast h
    constructor <;> linarith
  · push_neg at h
    have hz : (v : ℤ) < 2 ^ (8 * w - 1) := by exact_mod_cast h
    constructor <;> linarith

theorem div_pow23_bounds (v : ℤ) (h1 : -(2 ^ 23 : ℤ) ≤ v) (h2 : v < 2 ^ 23) :
    -1 ≤ (v : ℚ) / 2 ^ 23 ∧ (v : ℚ) / 2 ^ 23 ≤ 1 := by
  have hp : (0 : ℚ) < 2 ^ 23 := by positivity
  have c1 : (-(2 ^ 23 : ℤ) : ℚ) ≤ (v : ℚ) := by exact_mod_cast h1
  have c2 : ((v : ℤ) : ℚ) < ((2 ^ 23 : ℤ) : ℚ) := by exact_mod_cast h2
  push_cast at c1 c2
  constructor
  · rw [le_div_iff₀ hp]
    linarith
  · rw [div_le_iff₀ hp]
    linarith

theorem wavInts_length (Wd : ℕ) (hW0 : 0 < Wd) (raw : List ℕ) (M : ℕ)
    (h : raw.length = M * Wd) : (wavInts Wd raw).length = M := by
  unfold wavInts
  rw [List.length_map]
  exact listChunks_length_mul Wd hW0 M raw h

theorem wavMono_length (Cc M : ℕ) (hC : 1 ≤ Cc) (ps : List ℚ)
    (hlen : ps.length = M * Cc) : (wavMono Cc ps).length = M := by
  unfold wavMono
  split_ifs with h
  · unfold channelMean
    rw [List.length_map]
    exact listChunks_length_mul Cc (by omega) M ps hlen
  · have hc1 : Cc = 1 := by omega
    subst hc1
    simpa using hlen

theorem wavMono_bounds (Cc : ℕ) (ps : List ℚ)
    (hb : ∀ y ∈ ps, -1 ≤ y ∧ y ≤ 1) :
    ∀ y ∈ wavMono Cc ps, -1 ≤ y ∧ y ≤ 1 := by
  unfold wavMono
  split_ifs with h
  · exact channelMean_bounds Cc (by omega) ps hb
  · exact hb

/-- C8: for a well-formed PCM payload (width 1/2/3/4 bytes, `C ≥ 1`
channels, `N` frames, every byte < 256), the in-memory decode succeeds and
returns a mono waveform with every sample in `[-1, 1]`, of length `N` when
the frame rate is already 16000 and otherwise within one sample of
`max(1, round(N * 16000 / F))`. -/
theorem C8_wav_decode (C W F N : ℕ) (raw : List ℕ)
    (hW : W = 1 ∨ W = 2 ∨ W = 3 ∨ W = 4) (hC : 1 ≤ C) (hF : 1 ≤ F)
    (hbytes : ∀ b ∈ raw, b < 256) (hlen : raw.length = N * C * W) :
    ∃ out, decodeWavPcm C W F raw = some out ∧
      (∀ x ∈ out, -1 ≤ x ∧ x ≤ 1) ∧
      (F = 16000 → out.length = N) ∧
      (F ≠ 16000 →
        ((out.length : ℤ) - max 1 (pyRound ((N : ℚ) * (16000 / (F : ℚ))))).natAbs ≤ 1) := by
  have hW0 : 0 < W := by rcases hW with rfl | rfl | rfl | rfl <;> norm_num
  have hdvdW : raw.length % W = 0 := by rw [hlen]; exact Nat.mul_mod_left _ _
  have hintslen : (wavInts W raw).length = N * C :=
    wavInts_length W hW0 raw (N * C) (by rw [hlen])
  by_cases h3 : W = 3
  · subst h3
    have hpsb : ∀ y ∈ (wavInts 3 raw).map (fun v : ℤ => (v : ℚ) / 2 ^ 23),
        -1 ≤ y ∧ y ≤ 1 := by
      intro y hy
      rcases List.mem_map.mp hy with ⟨v, hv, rfl⟩
      unfold wavInts at hv
      simp only [List.mem_map] at hv
      obtain ⟨g, hg, hfng⟩ := hv
      rw [if_neg (by norm_num)] at hfng
      subst hfng
      obtain ⟨hglen, hgmem⟩ :=
        listChunks_forall 3 (fun b => b < 256) raw.length raw le_rfl hbytes g hg
      have hlt : leCompose g < 2 ^ 24 := by
        calc leCompose g < 256 ^ g.length := leCompose_lt g hgmem
          _ ≤ 256 ^ 3 := Nat.pow_le_pow_right (by norm_num) hglen
          _ = 2 ^ 24 := by norm_num
      have h24 : leCompose g < 2 ^ (8 * 3) := by norm_num; exact hlt
      have hse := signExtend_bounds 3 (leCompose g) (by norm_num) h24
      norm_num at hse
      exact div_pow23_bounds _ hse.1 hse.2
    have hpslen : ((wavInts 3 raw).map (fun v : ℤ => (v : ℚ) / 2 ^ 23)).length = N * C := by
      rw [List.length_map, hintslen]
    have hmlen : (wavMono C ((wavInts 3 raw).map (fun v : ℤ => (v : ℚ) / 2 ^ 23))).length = N :=
      wavMono_length C N hC _ hpslen
    have hmb := wavMono_bounds C _ hpsb
    have hguard :
        ¬(1 < C ∧ ((wavInts 3 raw).map (fun v : ℤ => (v : ℚ) / 2 ^ 23)).length % C ≠ 0) := by
      rintro ⟨_, hmod⟩
      exact hmod (by rw [hpslen]; exact Nat.mul_mod_left N C)
    have heq : decodeWavPcm C 3 F raw =
        some (linearResample
          (wavMono C ((wavInts 3 raw).map (fun v : ℤ => (v : ℚ) / 2 ^ 23))) F 16000) := by
      unfold decodeWavPcm
      rw [if_pos rfl, if_neg (not_not_intro hdvdW), if_neg hguard]
    obtain ⟨b1, b2, b3⟩ := decode_assemble _ F N hmlen hmb
    exact ⟨_, heq, b1, b2, b3⟩
  · have hW12 : W = 1 ∨ W = 2 ∨ W = 4 := by
      rcases hW with rfl | rfl | rfl | rfl <;> simp_all
    have hpslen : ((wavInts W raw).map (fun v : ℤ => (v : ℚ))).length = N * C := by
      rw [List.length_map, hintslen]
    have hmlen0 : (wavMono C ((wavInts W raw).map (fun v : ℤ => (v : ℚ)))).length = N :=
      wavMono_length C N hC _ hpslen
    have hscaledlen :
        ((if W = 1 then
            (wavMono C ((wavInts W raw).map (fun v : ℤ => (v : ℚ)))).map
              (fun x => (x - 128) / 128)
          else
            (wavMono C ((wavInts W raw).map (fun v : ℤ => (v : ℚ)))).map
              (fun x => x / (if W = 2 then (32768 : ℚ) else 2147483648))).map
          clipUnit).length = N := by
      rw [List.length_map]
      split_ifs <;> rw [List.length_map, hmlen0]
    have hscaledb : ∀ y ∈
        ((if W = 1 then
            (wavMono C ((wavInts W raw).map (fun v : ℤ => (v : ℚ)))).map
              (fun x => (x - 128) / 128)
          else
            (wavMono C ((wavInts W raw).map (fun v : ℤ => (v : ℚ)))).map
              (fun x => x / (if W = 2 then (32768 : ℚ) else 2147483648))).map
          clipUnit), -1 ≤ y ∧ y ≤ 1 := by
      intro y hy
      rcases List.mem_map.mp hy with ⟨x, _, rfl⟩
      exact clipUnit_bounds x
    have hguard :
        ¬(1 < C ∧ ((wavInts W raw).map (fun v : ℤ => (v : ℚ))).length % C ≠ 0) := by
      rintro ⟨_, hmod⟩
      exact hmod (by rw [hpslen]; exact Nat.mul_mod_left N C)
    have heq : decodeWavPcm C W F raw =
        some (linearResample
          ((if W = 1 then
              (wavMono C ((wavInts W raw).map (fun v : ℤ => (v : ℚ)))).map
                (fun x => (x - 128) / 128)
            else
              (wavMono C ((wavInts W raw).map (fun v : ℤ => (v : ℚ)))).map
                (fun x => x / (if W = 2 then (32768 : ℚ) else 2147483648))).map
            clipUnit) F 16000) := by
      unfold decodeWavPcm
      rw [if_neg h3, if_pos hW12, if_neg (not_not_intro hdvdW), if_neg hguard]
    obtain ⟨b1, b2, b3⟩ := decode_assemble _ F N hscaledlen hscaledb
    exact ⟨_, heq, b1, b2, b3⟩

/-! ## Witnesses -/

/-- C2 witness: a cpu request for `base`/`float16` of one minute at beam 5
against 8 GB of available RAM is admitted. -/
theorem C2_witness :
    defaultRM.admit_or_raise streamCpu16 "cpu" "base" "float16" 1 5 false =
      Except.ok (defaultRM.estimate "base" "float16" 1 5) := by
  refine (C2_admit_or_raise_iff streamCpu16 "cpu" "base" "float16" 1 5 false 8 2
      (Or.inr ⟨rfl, rfl, rfl, rfl⟩)).2.mpr ?_
  unfold ResourceManager.estimate
  norm_num [max_def, MODEL_RESIDENT_GB, COMPUTE_MULTIPLIER, TRANSIENT_PER_MIN_GB,
    DEFAULT_BEAM_BASELINE]
  split_ifs <;> simp_all <;> norm_num

/-- C5 witness: a nonsense device and compute canonicalise to
`(cpu, float32)`. -/
theorem C5_witness :
    (WhisperModelRegistry.key false "m" "tpu" "bf16").device = "cpu" ∧
    (WhisperModelRegistry.key false "m" "tpu" "bf16").compute_type = "float32" := by
  have h := C5_key_canonical false "m" "tpu" "bf16"
  have hd := h.2.2.1 (by decide) (by decide) (by decide)
  have hc := h.2.2.2 (by decide) (by decide) (by decide)
  exact ⟨hd, by rw [hc, if_pos hd]⟩

/-- C6 witness: a 0.2 GB transient estimate on a machine with 8 GB of
available RAM gives a hint of `max(1, floor(6 / 0.2)) = 30 ≥ 1`. -/
theorem C6_witness :
    defaultRM.concurrency_hint "cpu" ⟨14/10, 2/10⟩ snapCpu16 = 30 ∧
    1 ≤ defaultRM.concurrency_hint "cpu" ⟨14/10, 2/10⟩ snapCpu16 := by
  have h := C6_concurrency_hint "cpu" ⟨14/10, 2/10⟩ snapCpu16 (by norm_num)
  have he := h.2.2.1 (by decide) 16 8 rfl
  refine ⟨?_, by rw [he]; exact le_max_left _ _⟩
  rw [he]
  norm_num

/-- C7 witness: a request admitted cold on 8 GB free RAM is admitted hot. -/
theorem C7_witness :
    (defaultRM.can_accept "cpu" ⟨14/10, 2/10⟩ true snapCpu16).1 = true :=
  C7_can_accept_monotone defaultRM "cpu" ⟨14/10, 2/10⟩ snapCpu16 (by norm_num) (by
    rw [can_accept_fst_true, if_neg (by decide)]
    norm_num [snapCpu16, ResourceSnapshot.ramAvailableGb, defaultRM, CPU_RAM_MARGIN_GB,
      max_def])

/-- C9 witness: the rejected demo request's error snapshot is the second
probe observation, and the decision was made on the first. -/
theorem C9_witness :
    ({ reason := "Insufficient RAM", snapshot := snapCpuBig } : ResourceRejected).snapshot =
      streamShift 1 ∧
    (defaultRM.can_accept "cpu" (defaultRM.estimate "tiny" "float32" 1 5) false
      (streamShift 0)).1 = false :=
  C9_error_snapshot defaultRM streamShift "cpu" "tiny" "float32" 1 5 false
    { reason := "Insufficient RAM", snapshot := snapCpuBig } (by
      simp only [ResourceManager.admit_or_raise, streamShift_reject]
      rfl)

/-- C10 witness: with no RAM observation at all, even a modest cold request
is rejected. -/
theorem C10_witness :
    defaultRM.can_accept "cpu" ⟨14/10, 2/10⟩ false snapEmpty =
      (false, some "Insufficient RAM") :=
  C10_missing_ram_rejects ⟨14/10, 2/10⟩ false snapEmpty rfl (by norm_num)

/-- C8 witness: a 16 kHz mono 16-bit payload of one zero frame decodes to a
single in-range sample. -/
theorem C8_witness :
    ∃ out, decodeWavPcm 1 2 16000 [0, 0] = some out ∧
      (∀ x ∈ out, -1 ≤ x ∧ x ≤ 1) ∧
      (16000 = 16000 → out.length = 1) ∧
      (16000 ≠ 16000 →
        ((out.length : ℤ) -
          max 1 (pyRound (((1 : ℕ) : ℚ) * (16000 / ((16000 : ℕ) : ℚ))))).natAbs ≤ 1) :=
  C8_wav_decode 1 2 16000 1 [0, 0] (Or.inr (Or.inl rfl)) (by norm_num) (by norm_num)
    (by decide) (by decide)
